import Mathlib

/-!
Verification of the feature-engineering pipeline of a football-analytics
repository.  The Lean definitions below are shallow embeddings of the
Python/pandas transforms in `src/`:

* `build_prematch_features_full.py` / `build_prematch_features.py`
  (the Form Engine: rolling means with `shift(1)`, team-mean and
  global-mean `fillna`),
* `add_opponent_features.py` (the Opponent Differencer: self-merge on
  `match_id`, filter `team != team_opp`, signed `_diff` columns),
* `build_features.py` (the Match Aggregator: inner merges against the
  match table for home/away, numeric-column coercion, roster
  position-group proportions via `value_counts(normalize=True)`),
* `clean_lineups.py` (the Entity Normalizer: `normalize_year`,
  `normalize_position`).

Machine floats of the source are modelled as exact rationals (`ℚ`);
pandas `NaN` cells are modelled as `Option` `none`.  Statistic columns
are treated one at a time (the source loops the identical transform over
each designated column), so a single generic `stat : ℚ` field stands for
any designated statistic.
-/

namespace FootballPipeline

/-- One row of the enriched team-match table consumed by the Form Engine
(`features_enriched.csv`): identity columns, one designated numeric
statistic column, and the `result` column (`none` models a NaN cell). -/
structure MatchRow where
  season : String
  team : String
  matchId : String
  date : String
  stat : ℚ
  result : Option String
deriving DecidableEq, Repr

/-- The grouping predicate of `df.groupby(["season", "team"])`. -/
def sameGroup (a b : MatchRow) : Bool :=
  a.season == b.season && a.team == b.team

/-- Code-point lexicographic strict order on character lists (the order
Python uses to compare strings). -/
def lexLT : List Char → List Char → Bool
  | [], [] => false
  | [], _ :: _ => true
  | _ :: _, [] => false
  | a :: as, b :: bs => decide (a.toNat < b.toNat) || (a == b && lexLT as bs)

/-- Strict order on strings by code points. -/
def strLT (a b : String) : Bool :=
  lexLT a.data b.data

/-- Strict lexicographic order on the sort key of
`df.sort_values(["season", "team", "date"])`. -/
def sortKeyLT (a b : MatchRow) : Bool :=
  strLT a.season b.season ||
    (a.season == b.season &&
      (strLT a.team b.team ||
        (a.team == b.team && strLT a.date b.date)))

/-- Stable insertion of a row in front of the first strictly greater key. -/
def insertRow (r : MatchRow) : List MatchRow → List MatchRow
  | [] => [r]
  | x :: xs => if sortKeyLT x r then x :: insertRow r xs else r :: x :: xs

/-- The stable sort `df.sort_values(["season", "team", "date"])` (pandas
uses a stable lexsort for multi-column keys). -/
def sortRows (l : List MatchRow) : List MatchRow :=
  l.foldr insertRow []

/-- `Series.shift(1)`: a leading NaN, every value moved one slot down,
the last value dropped. -/
def shift1 (xs : List ℚ) : List (Option ℚ) :=
  none :: (xs.map some).dropLast

/-- The non-NaN values of the length-`w` trailing window ending at
index `i` of a series. -/
def windowVals (w : Nat) (xs : List (Option ℚ)) (i : Nat) : List ℚ :=
  ((xs.take (i + 1)).drop (i + 1 - w)).filterMap id

/-- `Series.rolling(window := w, min_periods := 1).mean()`: the mean of
the non-NaN values of the trailing window, NaN when no value is
available. -/
def rollingMean (w : Nat) (xs : List (Option ℚ)) : List (Option ℚ) :=
  (List.range xs.length).map (fun i =>
    let win := windowVals w xs i
    if win.length = 0 then none else some (win.sum / win.length))

/-- The values of column `v` over the `(season, team)` group of row `r`,
in table order. -/
def groupVals (v : MatchRow → ℚ) (l : List MatchRow) (r : MatchRow) : List ℚ :=
  (l.filter (fun x => sameGroup x r)).map v

/-- The position of row `i` inside its `(season, team)` group: the number
of earlier rows of the same group. -/
def prefixCount (l : List MatchRow) (i : Nat) (r : MatchRow) : Nat :=
  ((l.take i).filter (fun x => sameGroup x r)).length

/-- `df.groupby(["season", "team"])[col].transform(f)`: apply `f` to each
group's series and write the results back to the rows' positions. -/
def transformCol (v : MatchRow → ℚ) (f : List ℚ → List (Option ℚ))
    (l : List MatchRow) : List (Option ℚ) :=
  (List.range l.length).map (fun i =>
    match l.get? i with
    | none => none
    | some r => ((f (groupVals v l r)).get? (prefixCount l i r)).join)

/-- The `stat_rolling3` column:
`groupby(["season","team"])[col].transform(lambda x:
x.shift(1).rolling(window=3, min_periods=1).mean())`. -/
def rolling3Col (l : List MatchRow) : List (Option ℚ) :=
  transformCol (·.stat) (fun xs => rollingMean 3 (shift1 xs)) l

/-- `to_numeric_result`: 1 for `"win"`, 0 for `"loss"`, 0.5 for anything
else (draws, NaN, malformed text alike). -/
def to_numeric_result (r : Option String) : ℚ :=
  if r = some "win" then 1
  else if r = some "loss" then 0
  else 1 / 2

/-- The `win_rate_rolling5` column: the rolling transform with window 5
over `numeric_result`. -/
def winRate5Col (l : List MatchRow) : List (Option ℚ) :=
  transformCol (fun r => to_numeric_result r.result)
    (fun xs => rollingMean 5 (shift1 xs)) l

/-- The non-NaN values of column `col` on the rows of team `t`. -/
def teamVals (l : List MatchRow) (col : List (Option ℚ)) (t : String) : List ℚ :=
  ((l.zip col).filter (fun p => p.1.team == t)).filterMap (·.2)

/-- `df.groupby("team")[col].transform(lambda x: x.fillna(x.mean()))`:
each NaN cell is replaced by the mean of the team's non-NaN cells (and
stays NaN when the team has none). -/
def teamFill (l : List MatchRow) (col : List (Option ℚ)) : List (Option ℚ) :=
  (List.range l.length).map (fun i =>
    match l.get? i with
    | none => none
    | some r =>
      match (col.get? i).join with
      | some q => some q
      | none =>
        let vs := teamVals l col r.team
        if vs.length = 0 then none else some (vs.sum / vs.length))

/-- `df.fillna(df.mean(numeric_only=True))` on one column: remaining NaN
cells are replaced by the column's mean over its non-NaN cells. -/
def globalFill (col : List (Option ℚ)) : List (Option ℚ) :=
  let vs := col.filterMap id
  col.map (fun v =>
    match v with
    | some q => some q
    | none => if vs.length = 0 then none else some (vs.sum / vs.length))

/-- The Form Engine's `stat_rolling3` column on an already sorted table:
rolling transform, then team-mean fill, then global-mean fill. -/
def formColSorted (l : List MatchRow) : List (Option ℚ) :=
  globalFill (teamFill l (rolling3Col l))

/-- The Form Engine's `stat_rolling3` column of
`build_prematch_features_full.py`, sort included. -/
def formCol (rows : List MatchRow) : List (Option ℚ) :=
  formColSorted (sortRows rows)

/-- The Form Engine's `win_rate_rolling5` column on a sorted table. -/
def winRateColSorted (l : List MatchRow) : List (Option ℚ) :=
  globalFill (teamFill l (winRate5Col l))

/-- The Form Engine's `win_rate_rolling5` column, sort included. -/
def winRateCol (rows : List MatchRow) : List (Option ℚ) :=
  winRateColSorted (sortRows rows)

/-- The statistics of the up-to-`w` rows immediately preceding row `i`
inside its `(season, team)` group — the window the specification says the
rolling feature averages over. -/
def priorWindow (w : Nat) (l : List MatchRow) (i : Nat) (r : MatchRow) : List ℚ :=
  (((l.take i).filter (fun x => sameGroup x r)).map (·.stat)).drop
    (prefixCount l i r - w)

/-! ### Entity Normalizer (`clean_lineups.py`) -/

/-- Python's `str.strip()` on a character list: leading and trailing
whitespace removed. -/
def stripChars (cs : List Char) : List Char :=
  ((cs.dropWhile Char.isWhitespace).reverse.dropWhile Char.isWhitespace).reverse

/-- The key built by `normalize_year`:
`str(y).strip().lower().replace(".", "")`. -/
def cleanYearKey (s : String) : String :=
  (((stripChars s.data).map Char.toLower).filter (fun c => c ≠ '.')).asString

/-- The `mapping_text` synonym table of `normalize_year`; `none` models a
key absent from the dict. -/
def yearSynonym (s : String) : Option String :=
  if s = "fr" ∨ s = "frosh" ∨ s = "freshman" ∨ s = "1" ∨ s = "1st" ∨ s = "first" then
    some "1st"
  else if s = "so" ∨ s = "sophomore" ∨ s = "2" ∨ s = "2nd" ∨ s = "second" then
    some "2nd"
  else if s = "jr" ∨ s = "junior" ∨ s = "3" ∨ s = "3rd" ∨ s = "third" then
    some "3rd"
  else if s = "sr" ∨ s = "senior" ∨ s = "4" ∨ s = "4th" ∨ s = "fourth" then
    some "4th"
  else if s = "5" ∨ s = "5th" ∨ s = "fifth" then
    some "5th"
  else none

/-- The `mapping_num` table of `normalize_year` (`"UNK"` maps to 0). -/
def yearOrdinal (lab : String) : Nat :=
  if lab = "1st" then 1
  else if lab = "2nd" then 2
  else if lab = "3rd" then 3
  else if lab = "4th" then 4
  else if lab = "5th" then 5
  else 0

/-- `normalize_year`: `none` models a NaN cell; empty-after-strip text and
NaN both yield `(0, "UNK")`; otherwise the cleaned key is looked up in the
synonym table, defaulting to `"UNK"`. -/
def normalize_year (y : Option String) : Nat × String :=
  match y with
  | none => (0, "UNK")
  | some s =>
    if stripChars s.data = [] then (0, "UNK")
    else
      let std := (yearSynonym (cleanYearKey s)).getD "UNK"
      (yearOrdinal std, std)

/-- `re.sub(r"[^a-zA-Z/]", "", str(p).upper())` as a character list. -/
def cleanPos (s : String) : List Char :=
  (s.data.map Char.toUpper).filter (fun c => c.isAlpha || c == '/')

/-- `p.split("/")[0]`: the token before the first slash. -/
def mainPos (cs : List Char) : List Char :=
  cs.takeWhile (fun c => c ≠ '/')

/-- `startsWithTok pat l` holds when `pat` is an initial segment of `l`. -/
def startsWithTok : List Char → List Char → Bool
  | [], _ => true
  | _ :: _, [] => false
  | a :: as, b :: bs => a == b && startsWithTok as bs

/-- `occursIn pat l` holds when `pat` occurs contiguously inside `l`. -/
def occursIn (pat : List Char) : List Char → Bool
  | [] => startsWithTok pat []
  | l@(_ :: rest) => startsWithTok pat l || occursIn pat rest

/-- Python's `kw in main_pos` substring test. -/
def containsTok (main : List Char) (kw : String) : Bool :=
  occursIn kw.data main

/-- The goalkeeper keyword set. -/
def gkKeys : List String := ["GK", "GOAL"]

/-- The defender keyword set. -/
def defKeys : List String := ["CB", "D", "LB", "RB", "DEF", "FB", "WB", "BACK", "CD"]

/-- The midfielder keyword set. -/
def midKeys : List String := ["CM", "M", "CDM", "LMF", "RMF", "MF", "MID", "CAM", "AMF"]

/-- The forward keyword set. -/
def forKeys : List String := ["ST", "F", "CF", "FW", "F", "W"]

/-- `normalize_position`: NaN or blank input yields `("UNK", "UNK")`;
otherwise the cleaned primary token is classified by ordered keyword
containment, GK before DEF before MID before FOR, defaulting to `"UNK"`. -/
def normalize_position (p : Option String) : String × String :=
  match p with
  | none => ("UNK", "UNK")
  | some s =>
    if stripChars s.data = [] then ("UNK", "UNK")
    else
      let main := mainPos (cleanPos s)
      let zone := main.asString
      if gkKeys.any (containsTok main) then (zone, "GK")
      else if defKeys.any (containsTok main) then (zone, "DEF")
      else if midKeys.any (containsTok main) then (zone, "MID")
      else if forKeys.any (containsTok main) then (zone, "FOR")
      else (zone, "UNK")

/-! ### Opponent Differencer (`add_opponent_features.py`, and the
`*_form_diff` step of `build_prematch_features_full.py`) -/

/-- One row of the table entering the self-merge, with a single generic
diff-eligible statistic column (the source computes the identical
subtraction for each such column). -/
structure FeatRow where
  matchId : String
  team : String
  stat : ℚ
deriving DecidableEq, Repr

/-- `df.merge(df, on="match_id", suffixes=("", "_opp"))`: every pair of
rows sharing a `match_id`, left row first. -/
def selfMerge (df : List FeatRow) : List (FeatRow × FeatRow) :=
  df.flatMap (fun a =>
    (df.filter (fun b => b.matchId == a.matchId)).map (fun b => (a, b)))

/-- `merged[merged["team"] != merged["team_opp"]]`: discard self-pairs. -/
def oppPairs (df : List FeatRow) : List (FeatRow × FeatRow) :=
  (selfMerge df).filter (fun pr => !(pr.1.team == pr.2.team))

/-- A `_diff` column: own value minus the opponent's value. -/
def statDiff (pr : FeatRow × FeatRow) : ℚ :=
  pr.1.stat - pr.2.stat

/-! ### Match Aggregator (`build_features.py`) -/

/-- A `(match_id, team)` row of the aggregated features table (Step 5/7
of `build_features.py`); only the merge keys matter for the pairing
invariants. -/
structure StatRow where
  matchId : String
  team : String
deriving DecidableEq, Repr

/-- One row of the match-level table (`matches_all.csv`). -/
structure MatchRec where
  matchId : String
  homeTeam : String
  awayTeam : String
deriving DecidableEq, Repr

/-- `features.merge(matches, left_on=["match_id","team"],
right_on=["match_id","home_team"], how="inner")` followed by
`home["is_home"] = 1`. -/
def homeMerge (features : List StatRow) (mrecs : List MatchRec) :
    List (StatRow × MatchRec × Bool) :=
  features.flatMap (fun f =>
    (mrecs.filter (fun mt => mt.matchId == f.matchId && mt.homeTeam == f.team)).map
      (fun mt => (f, mt, true)))

/-- The away-side inner merge, `away["is_home"] = 0`. -/
def awayMerge (features : List StatRow) (mrecs : List MatchRec) :
    List (StatRow × MatchRec × Bool) :=
  features.flatMap (fun f =>
    (mrecs.filter (fun mt => mt.matchId == f.matchId && mt.awayTeam == f.team)).map
      (fun mt => (f, mt, false)))

/-- `combined = pd.concat([home, away])`. -/
def combinedRows (features : List StatRow) (mrecs : List MatchRec) :
    List (StatRow × MatchRec × Bool) :=
  homeMerge features mrecs ++ awayMerge features mrecs

/-- Step 4 of `build_features.py` on one cell:
`pd.to_numeric(box[col], errors="coerce").fillna(0)` — an unparseable
cell (`none`) becomes 0. -/
def coerceCell (v : Option ℚ) : ℚ :=
  v.getD 0

/-- Step 4 of `build_features.py` on one required column of an `n`-row
boxscore table: a present column is coerced cell-wise, a wholly absent
column (`none`) is created as the constant 0 (`box[col] = 0`). -/
def ensureStatCol (col : Option (List (Option ℚ))) (n : Nat) : List ℚ :=
  match col with
  | some vs => vs.map coerceCell
  | none => List.replicate n 0

/-! ### Roster composition proportions (Step 6 of `build_features.py`) -/

/-- The five position groups of the normalizer's codomain. -/
def posGroups : List String := ["GK", "DEF", "MID", "FOR", "UNK"]

/-- The non-NaN `position_group` entries of one `(match_id, team)` group
of `box_lineup` (a left-merge miss leaves a NaN cell, modelled `none`). -/
def matchedGroups (g : List (Option String)) : List String :=
  g.filterMap id

/-- `value_counts(normalize=True)` read at category `cat`, with the
`fillna(0)` of absent categories: NaN entries are dropped, the count is
normalized by the number of non-NaN entries, an empty group gives 0. -/
def groupProportion (g : List (Option String)) (cat : String) : ℚ :=
  let ms := matchedGroups g
  if ms.length = 0 then 0
  else ((ms.filter (fun x => x == cat)).length : ℚ) / (ms.length : ℚ)

/-- The sum of the five position-group proportion columns of one row. -/
def proportionSum (g : List (Option String)) : ℚ :=
  (posGroups.map (groupProportion g)).sum

/-! ## Theorems -/

/-- C10: the numeric encoding of match results maps exactly `"win"` to 1
and exactly `"loss"` to 0, and every other value — draws, but also
missing, unresolved or malformed results — to 0.5, as if they were
draws. -/
theorem to_numeric_result_catch_all (r : Option String) :
    to_numeric_result (some "win") = 1 ∧
    to_numeric_result (some "loss") = 0 ∧
    (r ≠ some "win" → r ≠ some "loss" → to_numeric_result r = 1 / 2) := by
  refine ⟨rfl, rfl, fun h1 h2 => ?_⟩
  simp [to_numeric_result, h1, h2]

/-- Witness for C10 at the missing value `none`: a NaN result is encoded
as 0.5. -/
theorem to_numeric_result_catch_all_witness :
    (none : Option String) ≠ some "win" ∧ (none : Option String) ≠ some "loss" ∧
      to_numeric_result none = 1 / 2 :=
  ⟨by simp, by simp,
    (to_numeric_result_catch_all none).2.2 (by simp) (by simp)⟩

/-- C6: evaluating the position normalizer at the failing input
`"CDM/CB"`.  The code returns zone `"CDM"` with group `"DEF"` — the DEF
keyword `"D"` is contained in `"CDM"` and the DEF set is checked before
the MID set — not group `"MID"` as the specification states (the MID
keyword set even lists `"CDM"`, but that entry is unreachable). -/
theorem normalize_position_cdm_cb :
    normalize_position (some "CDM/CB") = ("CDM", "DEF") ∧
    normalize_position (some "CDM/CB") ≠ ("CDM", "MID") := by
  constructor
  · decide
  · decide

/-- C7 counterexample: a boxscore table of 2 rows whose required
statistic column is entirely absent makes the stage produce the
constant-0 column instead of aborting the run. -/
theorem missing_column_yields_zero_column :
    ensureStatCol none 2 = [0, 0] ∧ ensureStatCol none 2 ≠ [] := by
  constructor
  · rfl
  · simp [ensureStatCol]

/-- C7 amended: a structurally required statistic column that is wholly
absent from the boxscore input is silently created as the constant 0
column (one 0 per row); a present column is coerced cell-wise with
unparseable cells becoming 0.  The stage never aborts. -/
theorem ensureStatCol_total (n : Nat) (vs : List (Option ℚ)) (q : ℚ) :
    ensureStatCol none n = List.replicate n 0 ∧
    ensureStatCol (some vs) n = vs.map coerceCell ∧
    coerceCell none = 0 ∧ coerceCell (some q) = q :=
  ⟨rfl, rfl, rfl, rfl⟩

/-- The five counts over the position groups partition any list whose
elements all lie in the five groups. -/
theorem countsFive (ms : List String) (hmem : ∀ c ∈ ms, c ∈ posGroups) :
    (ms.filter (fun x => x == "GK")).length + (ms.filter (fun x => x == "DEF")).length +
      (ms.filter (fun x => x == "MID")).length + (ms.filter (fun x => x == "FOR")).length +
      (ms.filter (fun x => x == "UNK")).length = ms.length := by
  induction ms with
  | nil => simp
  | cons x xs ih =>
    have hx := hmem x (List.mem_cons_self x xs)
    have ih' := ih (fun c hc => hmem c (List.mem_cons_of_mem _ hc))
    simp only [posGroups, List.mem_cons, List.not_mem_nil, or_false] at hx
    rcases hx with h | h | h | h | h <;> subst h <;>
      simp [List.filter_cons] <;> omega

/-- C9 counterexample: a team-match group holding one player row whose
`position_group` cell is NaN (the player missed the lineups left-merge)
has proportion columns summing to 0, not 1, although the row was
produced from at least one player row. -/
theorem proportions_unmatched_counterexample :
    ([(none : Option String)] ≠ ([] : List (Option String))) ∧
      proportionSum [none] = 0 := by
  refine ⟨by simp, ?_⟩
  simp [proportionSum, posGroups, groupProportion, matchedGroups]

/-- C9 amended: for every team-match group with at least one player row
that matched the lineups table (a non-NaN `position_group` cell), all
matched entries lying in the five groups, the five proportion columns
sum to exactly 1; a group with no matched entries has all five
proportions equal to 0 (never NaN). -/
theorem proportionSum_spec (g : List (Option String)) :
    (matchedGroups g ≠ [] → (∀ c ∈ matchedGroups g, c ∈ posGroups) →
      proportionSum g = 1) ∧
    (matchedGroups g = [] → ∀ cat, groupProportion g cat = 0) := by
  constructor
  · intro hne hmem
    have hlen : matchedGroups g ≠ [] → (matchedGroups g).length ≠ 0 := by
      intro h
      simpa [List.length_eq_zero] using h
    have hL : ((matchedGroups g).length : ℚ) ≠ 0 := by
      exact_mod_cast hlen hne
    have hsum := countsFive (matchedGroups g) hmem
    simp only [proportionSum, posGroups, List.map_cons, List.map_nil, List.sum_cons,
      List.sum_nil, add_zero, groupProportion]
    rw [if_neg (hlen hne), if_neg (hlen hne), if_neg (hlen hne), if_neg (hlen hne),
      if_neg (hlen hne)]
    have hsumQ : ((List.filter (fun x => x == "GK") (matchedGroups g)).length : ℚ) +
        ((List.filter (fun x => x == "DEF") (matchedGroups g)).length : ℚ) +
        ((List.filter (fun x => x == "MID") (matchedGroups g)).length : ℚ) +
        ((List.filter (fun x => x == "FOR") (matchedGroups g)).length : ℚ) +
        ((List.filter (fun x => x == "UNK") (matchedGroups g)).length : ℚ) =
        ((matchedGroups g).length : ℚ) := by
      exact_mod_cast hsum
    field_simp
    linarith
  · intro hmt cat
    simp [groupProportion, hmt]

/-- Witness for C9 at a concrete matched group: proportions of
`[MID, GK, MID]` sum to 1. -/
theorem proportionSum_spec_witness :
    matchedGroups [some "MID", some "GK", some "MID"] ≠ [] ∧
      proportionSum [some "MID", some "GK", some "MID"] = 1 := by
  refine ⟨by decide, ?_⟩
  exact (proportionSum_spec _).1 (by decide) (by decide)

/-- Every label produced by the synonym lookup (with its `"UNK"` default)
is one of the six canonical year labels. -/
theorem yearLabel_mem (s : String) :
    (yearSynonym s).getD "UNK" ∈ ["1st", "2nd", "3rd", "4th", "5th", "UNK"] := by
  unfold yearSynonym
  split
  · simp
  · split
    · simp
    · split
      · simp
      · split
        · simp
        · split <;> simp

/-- The ordinal table never exceeds 5. -/
theorem yearOrdinal_le_five (lab : String) : yearOrdinal lab ≤ 5 := by
  unfold yearOrdinal
  split
  · omega
  · split
    · omega
    · split
      · omega
      · split
        · omega
        · split <;> omega

/-- C8: both normalizers are total with fixed codomains: `normalize_year`
returns an ordinal in 0..5 and a label among the six canonical labels,
with any input whose cleaned key misses the synonym table mapped to
`(0, "UNK")`; `normalize_position` returns a group among the five
canonical groups, with any input whose primary token contains no keyword
of any of the four sets assigned group `"UNK"`. -/
theorem normalizers_total (y p : Option String) :
    (normalize_year y).1 ≤ 5 ∧
    (normalize_year y).2 ∈ ["1st", "2nd", "3rd", "4th", "5th", "UNK"] ∧
    (∀ s, y = some s → yearSynonym (cleanYearKey s) = none →
      normalize_year y = (0, "UNK")) ∧
    (normalize_position p).2 ∈ ["GK", "DEF", "MID", "FOR", "UNK"] ∧
    (∀ s, p = some s →
      (∀ kw ∈ gkKeys ++ defKeys ++ midKeys ++ forKeys,
        containsTok (mainPos (cleanPos s)) kw = false) →
      (normalize_position p).2 = "UNK") := by
  refine ⟨?_, ?_, ?_, ?_, ?_⟩
  · match y with
    | none => simp [normalize_year]
    | some s =>
      simp only [normalize_year]
      split
      · omega
      · exact yearOrdinal_le_five _
  · match y with
    | none => simp [normalize_year]
    | some s =>
      simp only [normalize_year]
      split
      · simp
      · exact yearLabel_mem _
  · rintro s rfl hnone
    simp only [normalize_year]
    split
    · rfl
    · simp [hnone, yearOrdinal]
  · match p with
    | none => simp [normalize_position]
    | some s =>
      simp only [normalize_position]
      split
      · simp
      · split
        · simp
        · split
          · simp
          · split
            · simp
            · split <;> simp
  · rintro s rfl hkw
    have hgk : gkKeys.any (containsTok (mainPos (cleanPos s))) = false := by
      simp only [List.any_eq_false]
      intro kw hk
      simp [hkw kw (by simp [List.mem_append, hk])]
    have hdef : defKeys.any (containsTok (mainPos (cleanPos s))) = false := by
      simp only [List.any_eq_false]
      intro kw hk
      simp [hkw kw (by simp [List.mem_append, hk])]
    have hmid : midKeys.any (containsTok (mainPos (cleanPos s))) = false := by
      simp only [List.any_eq_false]
      intro kw hk
      simp [hkw kw (by simp [List.mem_append, hk])]
    have hfor : forKeys.any (containsTok (mainPos (cleanPos s))) = false := by
      simp only [List.any_eq_false]
      intro kw hk
      simp [hkw kw (by simp [List.mem_append, hk])]
    simp only [normalize_position]
    split
    · rfl
    · simp [hgk, hdef, hmid, hfor]

/-- Witness for C8 at the unmatched inputs `"grad student"` (year) and
`"??"` (position): both normalizers return their UNK sentinels. -/
theorem normalizers_total_witness :
    yearSynonym (cleanYearKey "grad student") = none ∧
    (∀ kw ∈ gkKeys ++ defKeys ++ midKeys ++ forKeys,
      containsTok (mainPos (cleanPos "??")) kw = false) ∧
    normalize_year (some "grad student") = (0, "UNK") ∧
    (normalize_position (some "??")).2 = "UNK" := by
  refine ⟨by decide, by decide, ?_, ?_⟩
  · exact (normalizers_total (some "grad student") (some "??")).2.2.1 _ rfl
      (by decide)
  · exact (normalizers_total (some "grad student") (some "??")).2.2.2.2 _ rfl
      (by decide)

/-- Restricting the generalized self-merge to one `match_id` restricts
the left table. -/
theorem selfMerge2_filter (df1 df2 : List FeatRow) (m : String) :
    (df1.flatMap (fun a =>
        (df2.filter (fun b => b.matchId == a.matchId)).map (fun b => (a, b)))).filter
        (fun pr => pr.1.matchId == m) =
      (df1.filter (fun a => a.matchId == m)).flatMap (fun a =>
        (df2.filter (fun b => b.matchId == a.matchId)).map (fun b => (a, b))) := by
  induction df1 with
  | nil => simp
  | cons a df1 ih =>
    simp only [List.flatMap_cons, List.filter_append, List.filter_cons, ih]
    rw [List.filter_map]
    by_cases h : a.matchId = m
    · simp [h, Function.comp]
    · simp [h, Function.comp]

/-- The rows of the self-merge output for one `match_id` are exactly the
square of that match's group of input rows. -/
theorem selfMerge_restrict (df : List FeatRow) (m : String) (G : List FeatRow)
    (hG : df.filter (fun r => r.matchId == m) = G) :
    (selfMerge df).filter (fun pr => pr.1.matchId == m) =
      G.flatMap (fun a => G.map (fun b => (a, b))) := by
  rw [selfMerge, selfMerge2_filter, hG]
  refine List.flatMap_congr (fun a ha => ?_)
  have ham : a.matchId = m := by
    have haf : a ∈ df.filter (fun r => r.matchId == m) := hG ▸ ha
    have := List.of_mem_filter haf
    simpa using this
  have : df.filter (fun b => b.matchId == a.matchId) =
      df.filter (fun r => r.matchId == m) := by
    apply List.filter_congr
    intro x _
    rw [ham]
  rw [this, hG]

/-- The opponent pairs for one `match_id` are the distinct-team pairs of
that match's group. -/
theorem oppPairs_restrict (df : List FeatRow) (m : String) (G : List FeatRow)
    (hG : df.filter (fun r => r.matchId == m) = G) :
    (oppPairs df).filter (fun pr => pr.1.matchId == m) =
      (G.flatMap (fun a => G.map (fun b => (a, b)))).filter
        (fun pr => !(pr.1.team == pr.2.team)) := by
  rw [oppPairs, List.filter_filter, ← selfMerge_restrict df m G hG,
    List.filter_filter]
  apply List.filter_congr
  intro x _
  rw [Bool.and_comm]

/-- For a match whose group is exactly the two distinct-team rows `A` and
`B`, the opponent pairs for that match are `(A, B)` and `(B, A)`. -/
theorem oppPairs_two_rows (df : List FeatRow) (m : String) (A B : FeatRow)
    (hG : df.filter (fun r => r.matchId == m) = [A, B])
    (hAB : A.team ≠ B.team) :
    (oppPairs df).filter (fun pr => pr.1.matchId == m) = [(A, B), (B, A)] := by
  rw [oppPairs_restrict df m [A, B] hG]
  have h1 : (A.team == B.team) = false := by
    simp [hAB]
  have h2 : (B.team == A.team) = false := by
    simp [Ne.symm hAB]
  simp [List.flatMap_cons, List.filter_cons, h1, h2]

/-- C3: for a match whose input table holds exactly the two rows `A` and
`B` with distinct teams, the Opponent Differencer outputs exactly the two
perspectives `(A, B)` and `(B, A)`, and the diff column of `A`'s row is
the negation of the diff column of `B`'s row. -/
theorem opp_pairing_antisymmetric (df : List FeatRow) (m : String) (A B : FeatRow)
    (hG : df.filter (fun r => r.matchId == m) = [A, B])
    (hAB : A.team ≠ B.team) :
    (oppPairs df).filter (fun pr => pr.1.matchId == m) = [(A, B), (B, A)] ∧
    statDiff (A, B) = -statDiff (B, A) := by
  constructor
  · exact oppPairs_two_rows df m A B hG hAB
  · simp only [statDiff]
    ring

/-- Witness for C3 at the spec's example match: rows with 12 and 9 shots
give diffs 3 and −3. -/
theorem opp_pairing_antisymmetric_witness :
    ([⟨"m", "a", 12⟩, ⟨"m", "b", 9⟩] : List FeatRow).filter
        (fun r => r.matchId == "m") = [⟨"m", "a", 12⟩, ⟨"m", "b", 9⟩] ∧
    ("a" : String) ≠ "b" ∧
    (oppPairs [⟨"m", "a", 12⟩, ⟨"m", "b", 9⟩]).filter
        (fun pr => pr.1.matchId == "m") =
      [(⟨"m", "a", 12⟩, ⟨"m", "b", 9⟩), (⟨"m", "b", 9⟩, ⟨"m", "a", 12⟩)] ∧
    statDiff (⟨"m", "a", 12⟩, ⟨"m", "b", 9⟩) = 3 := by
  refine ⟨by decide, by decide, ?_, by norm_num [statDiff]⟩
  exact (opp_pairing_antisymmetric _ "m" _ _ (by decide) (by decide)).1

/-- C5 counterexample: a match with three distinct-team rows is not
excluded — it contributes six output rows, and its team `"a"` appears in
two of them, violating both halves of the claim. -/
theorem opp_three_rows_counterexample :
    ((oppPairs [⟨"m", "a", 0⟩, ⟨"m", "b", 0⟩, ⟨"m", "c", 0⟩]).filter
        (fun pr => pr.1.matchId == "m")).length = 6 ∧
    ((oppPairs [⟨"m", "a", 0⟩, ⟨"m", "b", 0⟩, ⟨"m", "c", 0⟩]).filter
        (fun pr => pr.1.matchId == "m")).length ≠ 0 ∧
    ((oppPairs [⟨"m", "a", 0⟩, ⟨"m", "b", 0⟩, ⟨"m", "c", 0⟩]).filter
        (fun pr => pr.1.matchId == "m" && pr.1.team == "a")).length = 2 := by
  refine ⟨by decide, by decide, by decide⟩

/-- C5 amended: a match whose input rows all carry one single team (in
particular a one-row match) contributes no output rows; a match with
exactly two distinct-team rows contributes exactly one output row per
team.  A match with more than two distinct-team rows, however, is not
excluded: it contributes one row per ordered pair of distinct-team
rows. -/
theorem opp_pairing_amended (df : List FeatRow) (m : String) :
    ((∀ a ∈ df.filter (fun r => r.matchId == m),
        ∀ b ∈ df.filter (fun r => r.matchId == m), a.team = b.team) →
      (oppPairs df).filter (fun pr => pr.1.matchId == m) = []) ∧
    (∀ A B, df.filter (fun r => r.matchId == m) = [A, B] → A.team ≠ B.team →
      ∀ t : String,
        ((oppPairs df).filter
            (fun pr => pr.1.matchId == m && pr.1.team == t)).length =
          if t = A.team ∨ t = B.team then 1 else 0) := by
  constructor
  · intro hall
    rw [oppPairs_restrict df m (df.filter (fun r => r.matchId == m)) rfl]
    rw [List.filter_eq_nil]
    intro pr hpr
    simp only [List.mem_flatMap, List.mem_map] at hpr
    obtain ⟨a, ha, b, hb, rfl⟩ := hpr
    simp [hall a ha b hb]
  · intro A B hG hAB t
    have hsplit : (fun pr : FeatRow × FeatRow =>
        pr.1.matchId == m && pr.1.team == t) =
        (fun pr : FeatRow × FeatRow => (pr.1.team == t) &&
          (pr.1.matchId == m)) := by
      funext pr
      rw [Bool.and_comm]
    rw [hsplit, ← List.filter_filter, oppPairs_two_rows df m A B hG hAB]
    by_cases hA : t = A.team
    · have hB' : ¬ B.team = t := fun h => hAB (hA.symm.trans h.symm)
      rw [if_pos (Or.inl hA)]
      simp [List.filter_cons, hA.symm, hB']
    · by_cases hB : t = B.team
      · have hA' : ¬ A.team = t := fun h => hA h.symm
        rw [if_pos (Or.inr hB)]
        simp [List.filter_cons, hA', hB.symm]
      · have hA' : ¬ A.team = t := fun h => hA h.symm
        have hB' : ¬ B.team = t := fun h => hB h.symm
        rw [if_neg (by tauto)]
        simp [List.filter_cons, hA', hB']

/-- Witness for C5 at concrete matches: a one-row match produces no
output rows, and a two-row match produces one row per team. -/
theorem opp_pairing_amended_witness :
    (oppPairs [(⟨"m", "a", 5⟩ : FeatRow)]).filter
        (fun pr => pr.1.matchId == "m") = [] ∧
    ((oppPairs [(⟨"n", "a", 1⟩ : FeatRow), ⟨"n", "b", 2⟩]).filter
        (fun pr => pr.1.matchId == "n" && pr.1.team == "a")).length = 1 := by
  constructor
  · exact (opp_pairing_amended [⟨"m", "a", 5⟩] "m").1 (by decide)
  · have := (opp_pairing_amended [⟨"n", "a", 1⟩, ⟨"n", "b", 2⟩] "n").2
      ⟨"n", "a", 1⟩ ⟨"n", "b", 2⟩ (by decide) (by decide) "a"
    simpa using this

/-- Counting lemma for one side of the aggregator's inner merge: when the
match table holds exactly one record for `m`, the merged rows for `m` are
counted by the feature rows naming that record's side team. -/
theorem sideMerge_count (side : MatchRec → String) (flag : Bool)
    (features : List StatRow) (mrecs : List MatchRec) (m : String) (mt : MatchRec)
    (hm : mrecs.filter (fun x => x.matchId == m) = [mt]) :
    ((features.flatMap (fun f =>
        (mrecs.filter (fun x => x.matchId == f.matchId && side x == f.team)).map
          (fun x => (f, x, flag)))).filter
        (fun y => y.1.matchId == m)).length =
      (features.filter (fun f => f.matchId == m && f.team == side mt)).length := by
  induction features with
  | nil => simp
  | cons f fs ih =>
    simp only [List.flatMap_cons, List.filter_append, List.length_append, ih,
      List.filter_map, List.filter_cons]
    by_cases hfm : f.matchId = m
    · have hrw : mrecs.filter (fun x => x.matchId == f.matchId && side x == f.team) =
          (mrecs.filter (fun x => x.matchId == m)).filter
            (fun x => side x == f.team) := by
        rw [List.filter_filter]
        apply List.filter_congr
        intro x _
        rw [hfm, Bool.and_comm]
      rw [hrw, hm]
      by_cases hteam : f.team = side mt
      · simp [Function.comp, hfm, hteam, List.filter_cons]
        omega
      · have hteam' : ¬ side mt = f.team := fun h => hteam h.symm
        simp [Function.comp, hfm, hteam, hteam', List.filter_cons]
    · simp [Function.comp, hfm]

/-- C4 counterexample: a match whose away team `"b"` has no features row
yields exactly one combined output row (the home side), neither two nor
zero. -/
theorem aggregator_single_side_counterexample :
    ((combinedRows [⟨"m", "a"⟩] [⟨"m", "a", "b"⟩]).filter
        (fun y => y.1.matchId == "m")).length = 1 ∧
    ¬(((combinedRows [⟨"m", "a"⟩] [⟨"m", "a", "b"⟩]).filter
        (fun y => y.1.matchId == "m")).length = 2 ∨
      ((combinedRows [⟨"m", "a"⟩] [⟨"m", "a", "b"⟩]).filter
        (fun y => y.1.matchId == "m")).length = 0) := by
  refine ⟨by decide, by decide⟩

/-- C4 amended: for a match with a single match-table record, the number
of combined output rows equals the number of feature rows naming the home
team plus the number naming the away team — so a match with exactly one
resolvable participant yields exactly one row (that participant's), not
zero; two resolvable participants yield two rows; none yield zero. -/
theorem combined_count_by_participants (features : List StatRow)
    (mrecs : List MatchRec) (m : String) (mt : MatchRec)
    (hm : mrecs.filter (fun x => x.matchId == m) = [mt]) :
    ((combinedRows features mrecs).filter (fun y => y.1.matchId == m)).length =
      (features.filter (fun f => f.matchId == m && f.team == mt.homeTeam)).length +
      (features.filter (fun f => f.matchId == m && f.team == mt.awayTeam)).length := by
  unfold combinedRows homeMerge awayMerge
  rw [List.filter_append, List.length_append,
    sideMerge_count (fun x => x.homeTeam) true features mrecs m mt hm,
    sideMerge_count (fun x => x.awayTeam) false features mrecs m mt hm]

/-- Witness for C4 at the one-resolvable-participant match: exactly one
output row. -/
theorem combined_count_witness :
    ([(⟨"m", "a", "b"⟩ : MatchRec)].filter (fun x => x.matchId == "m") =
      [⟨"m", "a", "b"⟩]) ∧
    ((combinedRows [⟨"m", "a"⟩] [⟨"m", "a", "b"⟩]).filter
        (fun y => y.1.matchId == "m")).length = 1 := by
  refine ⟨by decide, ?_⟩
  have := combined_count_by_participants [⟨"m", "a"⟩] [⟨"m", "a", "b"⟩] "m"
    ⟨"m", "a", "b"⟩ (by decide)
  simpa using this

/-- The trailing window of the shifted series at a position inside the
group is the tail of the group's prefix. -/
theorem windowVals_shift1 (g : List ℚ) (w p : Nat) (hpl : p < g.length) :
    windowVals w (shift1 g) p = (g.take p).drop (p - w) := by
  unfold windowVals shift1
  rw [List.take_succ_cons]
  have hdl : ((g.map some).dropLast).take p = (g.take p).map some := by
    rw [List.dropLast_eq_take, List.take_take, List.length_map,
      Nat.min_eq_left (by omega), List.map_take]
  rw [hdl]
  rcases Nat.lt_or_ge p w with hw | hw
  · have h0 : p + 1 - w = 0 := by omega
    have h0' : p - w = 0 := by omega
    rw [h0, h0', List.drop_zero, List.drop_zero]
    simp only [List.filterMap_cons, id]
    rw [List.filterMap_map]
    exact List.filterMap_some _
  · have h1 : p + 1 - w = (p - w) + 1 := by omega
    rw [h1, List.drop_succ_cons, ← List.map_drop, List.filterMap_map]
    exact List.filterMap_some _

/-- `shift1` preserves the length of a nonempty series. -/
theorem shift1_length (g : List ℚ) (hg : g ≠ []) :
    (shift1 g).length = g.length := by
  have := List.length_pos.mpr hg
  simp only [shift1, List.length_cons, List.length_dropLast, List.length_map]
  omega

/-- Reading the rolling-mean series at an in-range position. -/
theorem rollingMean_get? (w : Nat) (xs : List (Option ℚ)) (p : Nat)
    (hp : p < xs.length) :
    (rollingMean w xs).get? p =
      some (if (windowVals w xs p).length = 0 then none
        else some ((windowVals w xs p).sum / ((windowVals w xs p).length : ℚ))) := by
  unfold rollingMean
  rw [List.get?_map, List.get?_range hp]
  rfl

/-- Reading the grouped transform at a row's position. -/
theorem transformCol_get? (v : MatchRow → ℚ) (f : List ℚ → List (Option ℚ))
    (l : List MatchRow) (i : Nat) (r : MatchRow) (hr : l.get? i = some r) :
    (transformCol v f l).get? i =
      some (((f (groupVals v l r)).get? (prefixCount l i r)).join) := by
  have hi : i < l.length := (List.get?_eq_some.mp hr).1
  have hr2 : l[i]? = some r := by
    rw [← List.get?_eq_getElem?]
    exact hr
  unfold transformCol
  rw [List.get?_map, List.get?_range hi]
  simp [hr2]

/-- The group series of a row decomposes at the row's position: its first
`prefixCount` entries are exactly the group rows before the row. -/
theorem groupVals_take (v : MatchRow → ℚ) (l : List MatchRow) (i : Nat)
    (r : MatchRow) (hr : l.get? i = some r) :
    (groupVals v l r).take (prefixCount l i r) =
      ((l.take i).filter (fun x => sameGroup x r)).map v ∧
    prefixCount l i r < (groupVals v l r).length := by
  obtain ⟨hi, hget⟩ := List.get?_eq_some.mp hr
  have hdrop : l.drop i = r :: l.drop (i + 1) := by
    rw [List.drop_eq_get_cons hi, hget]
  have hsplit : l.filter (fun x => sameGroup x r) =
      (l.take i).filter (fun x => sameGroup x r) ++
      r :: (l.drop (i + 1)).filter (fun x => sameGroup x r) := by
    conv_lhs => rw [← List.take_append_drop i l]
    rw [List.filter_append, hdrop, List.filter_cons, if_pos (by simp [sameGroup])]
  constructor
  · rw [groupVals, hsplit, List.map_append, prefixCount,
      List.take_left' (by rw [List.length_map])]
  · rw [groupVals, hsplit, prefixCount]
    simp only [List.length_map, List.length_append, List.length_cons]
    omega

/-- Master lemma for the shifted rolling transform: at every row with at
least one earlier row in its `(season, team)` group, the transform equals
the mean of the up-to-`w` immediately preceding group values. -/
theorem transform_rolling_at (w : Nat) (hw : 1 ≤ w) (v : MatchRow → ℚ)
    (l : List MatchRow) (i : Nat) (r : MatchRow)
    (hr : l.get? i = some r) (hp : 1 ≤ prefixCount l i r) :
    (transformCol v (fun xs => rollingMean w (shift1 xs)) l).get? i =
      some (some (((((l.take i).filter (fun x => sameGroup x r)).map v).drop
          (prefixCount l i r - w)).sum /
        (((((l.take i).filter (fun x => sameGroup x r)).map v).drop
          (prefixCount l i r - w)).length : ℚ))) := by
  obtain ⟨htake, hlt⟩ := groupVals_take v l i r hr
  have hgne : groupVals v l r ≠ [] := by
    intro h
    rw [h] at hlt
    simp at hlt
  have hlen : (shift1 (groupVals v l r)).length = (groupVals v l r).length :=
    shift1_length _ hgne
  rw [transformCol_get? v _ l i r hr,
    rollingMean_get? w _ (prefixCount l i r) (by rw [hlen]; exact hlt),
    windowVals_shift1 _ w _ hlt, htake]
  have hplen : (((l.take i).filter (fun x => sameGroup x r)).map v).length =
      prefixCount l i r := by
    rw [List.length_map]
    rfl
  have hwlen : ((((l.take i).filter (fun x => sameGroup x r)).map v).drop
      (prefixCount l i r - w)).length = prefixCount l i r -
      (prefixCount l i r - w) := by
    rw [List.length_drop, hplen]
  rw [if_neg (by rw [hwlen]; omega)]
  rfl

/-- C1: in the Form Engine's date-sorted table, every row with at least
one earlier row in its `(season, team)` group has `stat_rolling3` equal
to the arithmetic mean of the statistic over the up-to-3 immediately
preceding group rows, and replacing the row's own statistic value leaves
that rolling value unchanged. -/
theorem rolling3_mean_of_prior (rows : List MatchRow) (i : Nat) (r : MatchRow)
    (hr : (sortRows rows).get? i = some r)
    (hp : 1 ≤ prefixCount (sortRows rows) i r) :
    (rolling3Col (sortRows rows)).get? i =
      some (some ((priorWindow 3 (sortRows rows) i r).sum /
        ((priorWindow 3 (sortRows rows) i r).length : ℚ))) ∧
    ∀ q : ℚ,
      (rolling3Col ((sortRows rows).set i { r with stat := q })).get? i =
        some (some ((priorWindow 3 (sortRows rows) i r).sum /
          ((priorWindow 3 (sortRows rows) i r).length : ℚ))) := by
  revert hr hp
  generalize sortRows rows = l
  intro hr hp
  constructor
  · exact transform_rolling_at 3 (by omega) (fun x => x.stat) l i r hr hp
  · intro q
    have hi : i < l.length := (List.get?_eq_some.mp hr).1
    have hget' : (l.set i { r with stat := q }).get? i =
        some { r with stat := q } := by
      rw [List.get?_set]
      simp only [if_pos rfl, hr, Option.map_some']
      rfl
    have htk : (l.set i { r with stat := q }).take i = l.take i := by
      rw [List.set_eq_take_cons_drop _ hi,
        List.take_left' (by rw [List.length_take]; omega)]
    have hpc : prefixCount (l.set i { r with stat := q }) i
        { r with stat := q } = prefixCount l i r := by
      unfold prefixCount
      rw [htk]
      rfl
    have h2 := transform_rolling_at 3 (by omega) (fun x => x.stat)
      (l.set i { r with stat := q }) i { r with stat := q } hget'
      (by rw [hpc]; exact hp)
    rw [hpc, htk] at h2
    exact h2

/-- Witness for C1 at the spec's example: a team with three prior-match
shot counts 10, 14, 8 gets `shots_rolling3` = 32/3 in its fourth match,
whatever its own shot count (99 here) is. -/
theorem rolling3_mean_of_prior_witness :
    ((sortRows
        [⟨"s", "ubc", "m1", "01", 10, some "win"⟩,
         ⟨"s", "ubc", "m2", "02", 14, some "win"⟩,
         ⟨"s", "ubc", "m3", "03", 8, some "win"⟩,
         ⟨"s", "ubc", "m4", "04", 99, some "win"⟩]).get? 3 =
      some ⟨"s", "ubc", "m4", "04", 99, some "win"⟩) ∧
    (rolling3Col (sortRows
        [⟨"s", "ubc", "m1", "01", 10, some "win"⟩,
         ⟨"s", "ubc", "m2", "02", 14, some "win"⟩,
         ⟨"s", "ubc", "m3", "03", 8, some "win"⟩,
         ⟨"s", "ubc", "m4", "04", 99, some "win"⟩])).get? 3 =
      some (some (32 / 3)) := by
  refine ⟨by decide, ?_⟩
  have h := (rolling3_mean_of_prior
    [⟨"s", "ubc", "m1", "01", 10, some "win"⟩,
     ⟨"s", "ubc", "m2", "02", 14, some "win"⟩,
     ⟨"s", "ubc", "m3", "03", 8, some "win"⟩,
     ⟨"s", "ubc", "m4", "04", 99, some "win"⟩] 3
    ⟨"s", "ubc", "m4", "04", 99, some "win"⟩ (by decide) (by decide)).1
  rw [h]
  have hw : priorWindow 3 (sortRows
      [⟨"s", "ubc", "m1", "01", 10, some "win"⟩,
       ⟨"s", "ubc", "m2", "02", 14, some "win"⟩,
       ⟨"s", "ubc", "m3", "03", 8, some "win"⟩,
       ⟨"s", "ubc", "m4", "04", 99, some "win"⟩]) 3
      ⟨"s", "ubc", "m4", "04", 99, some "win"⟩ = [10, 14, 8] := by
    decide
  rw [hw]
  norm_num [List.sum_cons, List.sum_nil]

/-- C2 counterexample: two Form Engine runs that differ only in the
statistic of the team's second match (date `"02"`, the same season and
team, a date ≥ the first row's date `"01"`) give the first row — a season
opener with no prior matches, whose rolling value is imputed by the
team-mean fill — the values 1 and 2 respectively: the imputation leaks
future matches into the row. -/
theorem imputation_leaks_future :
    (formCol
        [⟨"s", "t", "m1", "01", 0, some "win"⟩,
         ⟨"s", "t", "m2", "02", 4, some "win"⟩,
         ⟨"s", "t", "m3", "03", 0, some "win"⟩]).get? 0 = some (some 1) ∧
    (formCol
        [⟨"s", "t", "m1", "01", 0, some "win"⟩,
         ⟨"s", "t", "m2", "02", 8, some "win"⟩,
         ⟨"s", "t", "m3", "03", 0, some "win"⟩]).get? 0 = some (some 2) ∧
    (formCol
        [⟨"s", "t", "m1", "01", 0, some "win"⟩,
         ⟨"s", "t", "m2", "02", 4, some "win"⟩,
         ⟨"s", "t", "m3", "03", 0, some "win"⟩]).get? 0 ≠
      (formCol
        [⟨"s", "t", "m1", "01", 0, some "win"⟩,
         ⟨"s", "t", "m2", "02", 8, some "win"⟩,
         ⟨"s", "t", "m3", "03", 0, some "win"⟩]).get? 0 := by
  have h1 : (formCol
      [⟨"s", "t", "m1", "01", 0, some "win"⟩,
       ⟨"s", "t", "m2", "02", 4, some "win"⟩,
       ⟨"s", "t", "m3", "03", 0, some "win"⟩]).get? 0 = some (some 1) := by
    simp [formCol, formColSorted, sortRows, insertRow, sortKeyLT, strLT, lexLT,
      globalFill, teamFill, teamVals, rolling3Col, transformCol, groupVals,
      prefixCount, sameGroup, rollingMean, windowVals, shift1, List.range_succ]
    norm_num
  have h2 : (formCol
      [⟨"s", "t", "m1", "01", 0, some "win"⟩,
       ⟨"s", "t", "m2", "02", 8, some "win"⟩,
       ⟨"s", "t", "m3", "03", 0, some "win"⟩]).get? 0 = some (some 2) := by
    simp [formCol, formColSorted, sortRows, insertRow, sortKeyLT, strLT, lexLT,
      globalFill, teamFill, teamVals, rolling3Col, transformCol, groupVals,
      prefixCount, sameGroup, rollingMean, windowVals, shift1, List.range_succ]
    norm_num
  refine ⟨h1, h2, ?_⟩
  rw [h1, h2]
  norm_num

/-- Both fill tiers keep an already defined rolling cell unchanged. -/
theorem fills_preserve_defined (l : List MatchRow) (col : List (Option ℚ))
    (i : Nat) (r : MatchRow) (q : ℚ)
    (hr : l.get? i = some r) (hc : col.get? i = some (some q)) :
    (globalFill (teamFill l col)).get? i = some (some q) := by
  have hi : i < l.length := (List.get?_eq_some.mp hr).1
  have hr2 : l[i]? = some r := by
    rw [← List.get?_eq_getElem?]
    exact hr
  have hc2 : col[i]? = some (some q) := by
    rw [← List.get?_eq_getElem?]
    exact hc
  have ht : (teamFill l col).get? i = some (some q) := by
    unfold teamFill
    rw [List.get?_map, List.get?_range hi]
    simp [hr2, hc2]
  unfold globalFill
  rw [List.get?_map, ht]
  rfl

/-- Two tables that agree, row by row, on grouping fields and on the
column values of one row's strict group prefix have equal mapped group
prefixes at that row. -/
theorem prefix_filter_map_eq (v1 v2 : MatchRow → ℚ) (r1 r2 : MatchRow) :
    ∀ (n : Nat) (l1 l2 : List MatchRow),
    (∀ j, j < n → ∀ a b, l1.get? j = some a → l2.get? j = some b →
      sameGroup a r1 = sameGroup b r2 ∧ (sameGroup a r1 = true → v1 a = v2 b)) →
    (∀ j, j < n → (l1.get? j = none ↔ l2.get? j = none)) →
    ((l1.take n).filter (fun x => sameGroup x r1)).map v1 =
      ((l2.take n).filter (fun x => sameGroup x r2)).map v2 := by
  intro n
  induction n with
  | zero =>
    intro l1 l2 _ _
    simp
  | succ n ih =>
    intro l1 l2 hrel hnone
    match l1, l2 with
    | [], [] => simp
    | [], b :: l2 =>
      have := (hnone 0 (by omega)).mp rfl
      simp at this
    | a :: l1, [] =>
      have := (hnone 0 (by omega)).mpr rfl
      simp at this
    | a :: l1, b :: l2 =>
      have h0 := hrel 0 (by omega) a b rfl rfl
      have hrec := ih l1 l2
        (fun j hj a' b' h1 h2 => hrel (j + 1) (by omega) a' b'
          (by simpa using h1) (by simpa using h2))
        (fun j hj => by simpa using hnone (j + 1) (by omega))
      rw [List.take_succ_cons, List.take_succ_cons, List.filter_cons,
        List.filter_cons]
      by_cases hsg : sameGroup a r1 = true
      · rw [if_pos hsg, if_pos (h0.1 ▸ hsg)]
        simp only [List.map_cons, hrec, h0.2 hsg]
      · rw [if_neg hsg, if_neg (by rw [← h0.1]; exact hsg)]
        exact hrec

/-- C2 amended: the no-leakage invariant holds for every row of the
date-sorted table that has at least one earlier row in its
`(season, team)` group — its `stat_rolling3` and `win_rate_rolling5`
values (team-mean and global-mean fills included) are unchanged under any
perturbation of the statistics and results of rows at or after it in the
table, and of any rows outside its group.  Rows with no prior group rows
are excluded: their values are imputed from full-run means and can depend
on later matches, as the counterexample shows. -/
theorem form_noninterference (l1 l2 : List MatchRow) (i : Nat)
    (r1 r2 : MatchRow)
    (hr1 : l1.get? i = some r1) (hr2 : l2.get? i = some r2)
    (hgrp : r1.season = r2.season ∧ r1.team = r2.team)
    (hp : 1 ≤ prefixCount l1 i r1)
    (hrel : ∀ j, j < i → ∀ a b, l1.get? j = some a → l2.get? j = some b →
      a.season = b.season ∧ a.team = b.team ∧
      (sameGroup a r1 = true → a.stat = b.stat ∧ a.result = b.result))
    (hnone : ∀ j, j < i → (l1.get? j = none ↔ l2.get? j = none)) :
    (formColSorted l1).get? i = (formColSorted l2).get? i ∧
    (winRateColSorted l1).get? i = (winRateColSorted l2).get? i := by
  have hsame : ∀ j, j < i → ∀ a b, l1.get? j = some a → l2.get? j = some b →
      sameGroup a r1 = sameGroup b r2 := by
    intro j hj a b h1 h2
    obtain ⟨hs, ht, _⟩ := hrel j hj a b h1 h2
    simp only [sameGroup, hs, ht, hgrp.1, hgrp.2]
  have hstat := prefix_filter_map_eq (fun x => x.stat) (fun x => x.stat) r1 r2 i
    l1 l2
    (fun j hj a b h1 h2 => ⟨hsame j hj a b h1 h2,
      fun hg => ((hrel j hj a b h1 h2).2.2 hg).1⟩)
    hnone
  have hres := prefix_filter_map_eq (fun x => to_numeric_result x.result)
    (fun x => to_numeric_result x.result) r1 r2 i l1 l2
    (fun j hj a b h1 h2 => ⟨hsame j hj a b h1 h2,
      fun hg => by
        show to_numeric_result a.result = to_numeric_result b.result
        rw [((hrel j hj a b h1 h2).2.2 hg).2]⟩)
    hnone
  have hpc : prefixCount l2 i r2 = prefixCount l1 i r1 := by
    unfold prefixCount
    have := congrArg List.length hstat
    simpa using this.symm
  have hp2 : 1 ≤ prefixCount l2 i r2 := by
    rw [hpc]
    exact hp
  constructor
  · have h1 := transform_rolling_at 3 (by omega) (fun x => x.stat) l1 i r1 hr1 hp
    have h2 := transform_rolling_at 3 (by omega) (fun x => x.stat) l2 i r2 hr2 hp2
    rw [hpc, ← hstat] at h2
    unfold formColSorted
    rw [fills_preserve_defined l1 (rolling3Col l1) i r1 _ hr1 h1,
      fills_preserve_defined l2 (rolling3Col l2) i r2 _ hr2 h2]
  · have h1 := transform_rolling_at 5 (by omega)
      (fun x => to_numeric_result x.result) l1 i r1 hr1 hp
    have h2 := transform_rolling_at 5 (by omega)
      (fun x => to_numeric_result x.result) l2 i r2 hr2 hp2
    rw [hpc, ← hres] at h2
    unfold winRateColSorted
    rw [fills_preserve_defined l1 (winRate5Col l1) i r1 _ hr1 h1,
      fills_preserve_defined l2 (winRate5Col l2) i r2 _ hr2 h2]

/-- Witness for C2 at a concrete pair of runs: perturbing the second
match's statistic (4 → 9) leaves the second row's rolling values
unchanged, that row having one prior match. -/
theorem form_noninterference_witness :
    (formColSorted
        [⟨"s", "t", "m1", "01", 5, some "win"⟩,
         ⟨"s", "t", "m2", "02", 4, some "loss"⟩]).get? 1 =
      (formColSorted
        [⟨"s", "t", "m1", "01", 5, some "win"⟩,
         ⟨"s", "t", "m2", "02", 9, some "win"⟩]).get? 1 ∧
    (winRateColSorted
        [⟨"s", "t", "m1", "01", 5, some "win"⟩,
         ⟨"s", "t", "m2", "02", 4, some "loss"⟩]).get? 1 =
      (winRateColSorted
        [⟨"s", "t", "m1", "01", 5, some "win"⟩,
         ⟨"s", "t", "m2", "02", 9, some "win"⟩]).get? 1 := by
  have hrel : ∀ j, j < 1 → ∀ a b,
      ([⟨"s", "t", "m1", "01", 5, some "win"⟩,
        ⟨"s", "t", "m2", "02", 4, some "loss"⟩] :
          List MatchRow).get? j = some a →
      ([⟨"s", "t", "m1", "01", 5, some "win"⟩,
        ⟨"s", "t", "m2", "02", 9, some "win"⟩] :
          List MatchRow).get? j = some b →
      a.season = b.season ∧ a.team = b.team ∧
      (sameGroup a ⟨"s", "t", "m2", "02", 4, some "loss"⟩ = true →
        a.stat = b.stat ∧ a.result = b.result) := by
    intro j hj a b h1 h2
    have hj0 : j = 0 := by omega
    subst hj0
    simp only [List.get?_cons_zero, Option.some.injEq] at h1 h2
    subst h1
    subst h2
    exact ⟨rfl, rfl, fun _ => ⟨rfl, rfl⟩⟩
  have hnone : ∀ j, j < 1 →
      (([⟨"s", "t", "m1", "01", 5, some "win"⟩,
         ⟨"s", "t", "m2", "02", 4, some "loss"⟩] :
            List MatchRow).get? j = none ↔
       ([⟨"s", "t", "m1", "01", 5, some "win"⟩,
         ⟨"s", "t", "m2", "02", 9, some "win"⟩] :
            List MatchRow).get? j = none) := by
    intro j hj
    have hj0 : j = 0 := by omega
    subst hj0
    simp
  exact form_noninterference _ _ 1
    ⟨"s", "t", "m2", "02", 4, some "loss"⟩
    ⟨"s", "t", "m2", "02", 9, some "win"⟩
    (by decide) (by decide) ⟨rfl, rfl⟩ (by decide) hrel hnone

end FootballPipeline
